import Mathlib

set_option maxRecDepth 100000

/-!
Shallow embedding of the simple-fuzzer repository (src/fuzzer.rs, src/evm.rs,
src/main.rs), a property-based fuzzer for smart contracts.

Modelling conventions:
- machine bytes are `Nat` values below 256; 64-bit lanes are `Nat` values
  reduced modulo `2 ^ 64` wherever overflow matters;
- Rust panics (`unimplemented!`, `unreachable!`, failed `assert_eq!`, the
  panics raised inside `rand::gen_range` and `Evm::transact_success_or_panic`)
  are modelled as `Except.error` values of the `FuzzError` type, one
  constructor per panic site;
- the ambient thread-local random generator is threaded explicitly as a
  stream of naturals with a cursor (`Rng`); distributional facts are not
  modelled, only which draws happen and in which order;
- the revm execution environment is external to the repository and is
  modelled at its interface: a scripted oracle (`Env`) that answers each
  successive transaction with success, revert or halt, and records a log of
  the calls it received.
-/

/-- Left rotation of a 64-bit lane, result reduced modulo `2 ^ 64`. -/
def rotl64 (x n : Nat) : Nat :=
  ((x <<< n) ||| (x >>> (64 - n))) % 18446744073709551616

/-- Round constants of the Keccak-f[1600] permutation. -/
def keccakRC : List Nat :=
  [0x1, 0x8082, 0x800000000000808a,
   0x8000000080008000, 0x808b, 0x80000001,
   0x8000000080008081, 0x8000000000008009, 0x8a,
   0x88, 0x80008009, 0x8000000a,
   0x8000808b, 0x800000000000008b, 0x8000000000008089,
   0x8000000000008003, 0x8000000000008002, 0x8000000000000080,
   0x800a, 0x800000008000000a, 0x8000000080008081,
   0x8000000000008080, 0x80000001, 0x8000000080008008]

/-- One round of Keccak-f[1600].  The state is the list of 25 lanes, lane
`(x, y)` stored at position `x + 5 * y`.  A state of another shape is mapped
to the empty list (never reached from `keccak256`). -/
def keccakRound (rc : Nat) (st : List Nat) : List Nat :=
  match st with
  | [a0, a1, a2, a3, a4, a5, a6, a7, a8, a9, a10, a11, a12, a13, a14, a15, a16, a17, a18, a19, a20, a21, a22, a23, a24] =>
  let c0 := a0 ^^^ a5 ^^^ a10 ^^^ a15 ^^^ a20
  let c1 := a1 ^^^ a6 ^^^ a11 ^^^ a16 ^^^ a21
  let c2 := a2 ^^^ a7 ^^^ a12 ^^^ a17 ^^^ a22
  let c3 := a3 ^^^ a8 ^^^ a13 ^^^ a18 ^^^ a23
  let c4 := a4 ^^^ a9 ^^^ a14 ^^^ a19 ^^^ a24
  let d0 := c4 ^^^ rotl64 c1 1
  let d1 := c0 ^^^ rotl64 c2 1
  let d2 := c1 ^^^ rotl64 c3 1
  let d3 := c2 ^^^ rotl64 c4 1
  let d4 := c3 ^^^ rotl64 c0 1
  let t0 := a0 ^^^ d0
  let t1 := a1 ^^^ d1
  let t2 := a2 ^^^ d2
  let t3 := a3 ^^^ d3
  let t4 := a4 ^^^ d4
  let t5 := a5 ^^^ d0
  let t6 := a6 ^^^ d1
  let t7 := a7 ^^^ d2
  let t8 := a8 ^^^ d3
  let t9 := a9 ^^^ d4
  let t10 := a10 ^^^ d0
  let t11 := a11 ^^^ d1
  let t12 := a12 ^^^ d2
  let t13 := a13 ^^^ d3
  let t14 := a14 ^^^ d4
  let t15 := a15 ^^^ d0
  let t16 := a16 ^^^ d1
  let t17 := a17 ^^^ d2
  let t18 := a18 ^^^ d3
  let t19 := a19 ^^^ d4
  let t20 := a20 ^^^ d0
  let t21 := a21 ^^^ d1
  let t22 := a22 ^^^ d2
  let t23 := a23 ^^^ d3
  let t24 := a24 ^^^ d4
  let b0 := t0
  let b1 := rotl64 t6 44
  let b2 := rotl64 t12 43
  let b3 := rotl64 t18 21
  let b4 := rotl64 t24 14
  let b5 := rotl64 t3 28
  let b6 := rotl64 t9 20
  let b7 := rotl64 t10 3
  let b8 := rotl64 t16 45
  let b9 := rotl64 t22 61
  let b10 := rotl64 t1 1
  let b11 := rotl64 t7 6
  let b12 := rotl64 t13 25
  let b13 := rotl64 t19 8
  let b14 := rotl64 t20 18
  let b15 := rotl64 t4 27
  let b16 := rotl64 t5 36
  let b17 := rotl64 t11 10
  let b18 := rotl64 t17 15
  let b19 := rotl64 t23 56
  let b20 := rotl64 t2 62
  let b21 := rotl64 t8 55
  let b22 := rotl64 t14 39
  let b23 := rotl64 t15 41
  let b24 := rotl64 t21 2
  let e0 := ((b0 ^^^ ((b1 ^^^ 18446744073709551615) &&& b2)) ^^^ rc)
  let e1 := b1 ^^^ ((b2 ^^^ 18446744073709551615) &&& b3)
  let e2 := b2 ^^^ ((b3 ^^^ 18446744073709551615) &&& b4)
  let e3 := b3 ^^^ ((b4 ^^^ 18446744073709551615) &&& b0)
  let e4 := b4 ^^^ ((b0 ^^^ 18446744073709551615) &&& b1)
  let e5 := b5 ^^^ ((b6 ^^^ 18446744073709551615) &&& b7)
  let e6 := b6 ^^^ ((b7 ^^^ 18446744073709551615) &&& b8)
  let e7 := b7 ^^^ ((b8 ^^^ 18446744073709551615) &&& b9)
  let e8 := b8 ^^^ ((b9 ^^^ 18446744073709551615) &&& b5)
  let e9 := b9 ^^^ ((b5 ^^^ 18446744073709551615) &&& b6)
  let e10 := b10 ^^^ ((b11 ^^^ 18446744073709551615) &&& b12)
  let e11 := b11 ^^^ ((b12 ^^^ 18446744073709551615) &&& b13)
  let e12 := b12 ^^^ ((b13 ^^^ 18446744073709551615) &&& b14)
  let e13 := b13 ^^^ ((b14 ^^^ 18446744073709551615) &&& b10)
  let e14 := b14 ^^^ ((b10 ^^^ 18446744073709551615) &&& b11)
  let e15 := b15 ^^^ ((b16 ^^^ 18446744073709551615) &&& b17)
  let e16 := b16 ^^^ ((b17 ^^^ 18446744073709551615) &&& b18)
  let e17 := b17 ^^^ ((b18 ^^^ 18446744073709551615) &&& b19)
  let e18 := b18 ^^^ ((b19 ^^^ 18446744073709551615) &&& b15)
  let e19 := b19 ^^^ ((b15 ^^^ 18446744073709551615) &&& b16)
  let e20 := b20 ^^^ ((b21 ^^^ 18446744073709551615) &&& b22)
  let e21 := b21 ^^^ ((b22 ^^^ 18446744073709551615) &&& b23)
  let e22 := b22 ^^^ ((b23 ^^^ 18446744073709551615) &&& b24)
  let e23 := b23 ^^^ ((b24 ^^^ 18446744073709551615) &&& b20)
  let e24 := b24 ^^^ ((b20 ^^^ 18446744073709551615) &&& b21)
  [e0, e1, e2, e3, e4, e5, e6, e7, e8, e9, e10, e11, e12, e13, e14, e15, e16, e17, e18, e19, e20, e21, e22, e23, e24]
  | _ => []

/-- The full 24-round Keccak-f[1600] permutation. -/
def keccakF (st : List Nat) : List Nat :=
  keccakRC.foldl (fun s rc => keccakRound rc s) st

/-- Value of lane `i` of a 136-byte block, read little-endian. -/
def laneOf (block : List Nat) (i : Nat) : Nat :=
  block.getD (8 * i) 0 ||| (block.getD (8 * i + 1) 0 <<< 8) |||
  (block.getD (8 * i + 2) 0 <<< 16) ||| (block.getD (8 * i + 3) 0 <<< 24) |||
  (block.getD (8 * i + 4) 0 <<< 32) ||| (block.getD (8 * i + 5) 0 <<< 40) |||
  (block.getD (8 * i + 6) 0 <<< 48) ||| (block.getD (8 * i + 7) 0 <<< 56)

/-- Absorb one 136-byte block into the rate portion (the first 17 lanes). -/
def xorBlock (st : List Nat) (block : List Nat) : List Nat :=
  (List.range 25).map (fun i => if i < 17 then st.getD i 0 ^^^ laneOf block i else st.getD i 0)

/-- Multi-rate padding with the legacy Keccak domain byte `0x01`, the padding
used by the tiny_keccak crate for `Keccak::v256` in fuzzer.rs. -/
def keccakPad (msg : List Nat) : List Nat :=
  let q := 136 - msg.length % 136
  if q = 1 then msg ++ [0x81]
  else msg ++ 0x01 :: (List.replicate (q - 2) 0 ++ [0x80])

/-- Absorb a padded message block by block; the counter is the number of
136-byte blocks still to process (structural recursion so that the kernel
can evaluate the definition). -/
def keccakAbsorb (st : List Nat) (bs : List Nat) : Nat → List Nat
  | 0 => st
  | k + 1 => keccakAbsorb (keccakF (xorBlock st (bs.take 136))) (bs.drop 136) k

/-- Little-endian byte expansion of one 64-bit lane. -/
def laneBytes (n : Nat) : List Nat :=
  [n % 256, (n >>> 8) % 256, (n >>> 16) % 256, (n >>> 24) % 256,
   (n >>> 32) % 256, (n >>> 40) % 256, (n >>> 48) % 256, (n >>> 56) % 256]

/-- Keccak-256 of a byte sequence: pad, absorb, and squeeze the first 32
bytes (lanes 0 to 3, little-endian). -/
def keccak256 (msg : List Nat) : List Nat :=
  let padded := keccakPad msg
  let st := keccakAbsorb (List.replicate 25 0) padded (padded.length / 136)
  laneBytes (st.getD 0 0) ++ laneBytes (st.getD 1 0) ++
  laneBytes (st.getD 2 0) ++ laneBytes (st.getD 3 0)

/-- UTF-8 encoding of one character. -/
def utf8Char (c : Char) : List Nat :=
  let n := c.toNat
  if n < 0x80 then [n]
  else if n < 0x800 then [0xC0 ||| (n >>> 6), 0x80 ||| (n &&& 0x3F)]
  else if n < 0x10000 then
    [0xE0 ||| (n >>> 12), 0x80 ||| ((n >>> 6) &&& 0x3F), 0x80 ||| (n &&& 0x3F)]
  else
    [0xF0 ||| (n >>> 18), 0x80 ||| ((n >>> 12) &&& 0x3F),
     0x80 ||| ((n >>> 6) &&& 0x3F), 0x80 ||| (n &&& 0x3F)]

/-- UTF-8 byte sequence of a string, the model of Rust's `str::as_bytes`. -/
def utf8Bytes (s : String) : List Nat :=
  (s.data.map utf8Char).flatten

/-- Model of the tiny_keccak incremental hasher: `update` accumulates input
bytes, `finalize` hashes everything absorbed so far. -/
structure Keccak where
  absorbed : List Nat

/-- Model of `Keccak::v256()`: a fresh hasher with nothing absorbed. -/
def Keccak.v256 : Keccak := ⟨[]⟩

/-- Model of `Hasher::update`. -/
def Keccak.update (k : Keccak) (input : List Nat) : Keccak :=
  ⟨k.absorbed ++ input⟩

/-- Model of `Hasher::finalize` into a 32-byte buffer. -/
def Keccak.finalize (k : Keccak) : List Nat :=
  keccak256 k.absorbed

/-- Embedding of `function_selector` (fuzzer.rs, lines 103-109): hash the
signature bytes with Keccak-256 and keep the first four bytes of the hash. -/
def function_selector (signature : List Nat) : List Nat :=
  let hash := (Keccak.v256.update signature).finalize
  [hash.getD 0 0, hash.getD 1 0, hash.getD 2 0, hash.getD 3 0]

/-- Failure values.  Every Rust panic site of the repository is modelled as
one constructor; the two `Unsupported`/`Empty` names follow the
specification's taxonomy for the corresponding failure conditions.
`UnsupportedTypeKind` models the `unimplemented!()` arms in
`ParamKind::from_string` and `ParamKind::random`; `PanicUnreachable` the
`unreachable!()` arm in `ParamKind::random`; `PanicEmptyRange` the panic
raised by `rand`'s `gen_range` on an empty range; `PanicRevert` and
`PanicHalt` the two panics in `Evm::transact_success_or_panic`;
`PanicAssert` the `assert_eq!` failures in `check_invariant`.
`EmptyInterface` and `InvariantEncodingViolation` are spec-level names that
no code site produces; they exist so that statements about them can be
expressed. -/
inductive FuzzError
  | UnsupportedTypeKind
  | EmptyInterface
  | InvariantEncodingViolation
  | PanicUnreachable
  | PanicEmptyRange
  | PanicRevert
  | PanicHalt
  | PanicAssert
deriving DecidableEq

/-- Embedding of `ParamKind` (fuzzer.rs, lines 7-29). -/
inductive ParamKind
  | Address
  | Bytes
  | Int (width : Nat)
  | Uint (width : Nat)
  | Bool
  | String
  | Array (element : ParamKind)
  | FixedBytes (len : Nat)
  | FixedArray (element : ParamKind) (len : Nat)
  | Tuple (elements : List ParamKind)

/-- Alias for `String` usable inside the `ParamKind` namespace, where the
bare name `String` denotes the `ParamKind.String` constructor. -/
abbrev SolTypeName := String

/-- Embedding of `ParamKind::from_string` (fuzzer.rs, lines 32-44); the
`unimplemented!()` catch-all arm is the `UnsupportedTypeKind` failure. -/
def ParamKind.from_string (str : SolTypeName) : Except FuzzError ParamKind :=
  if str = "address" then .ok .Address
  else if str = "bytes" then .ok .Bytes
  else if str = "uint8" then .ok (.Uint 8)
  else if str = "uint16" then .ok (.Uint 16)
  else if str = "uint32" then .ok (.Uint 32)
  else if str = "uint64" then .ok (.Uint 64)
  else if str = "uint128" then .ok (.Uint 128)
  else if str = "uint256" then .ok (.Uint 256)
  else .error .UnsupportedTypeKind

/-- Explicit model of `rand::thread_rng`: an infinite stream of naturals
with a cursor.  Only the sequence of draws is modelled, not distributions. -/
structure Rng where
  stream : Nat → Nat
  pos : Nat

/-- Draw `k` random bytes (the model of `rng.gen::<[u8; k]>()`). -/
def Rng.genBytes (rng : Rng) (k : Nat) : List Nat × Rng :=
  ((List.range k).map (fun i => rng.stream (rng.pos + i) % 256), ⟨rng.stream, rng.pos + k⟩)

/-- Draw an index below `n` (the model of `rng.gen_range(0..n)`); on an
empty range `rand` panics, modelled as `PanicEmptyRange`. -/
def Rng.genRange (rng : Rng) (n : Nat) : Except FuzzError Nat × Rng :=
  if n = 0 then (.error .PanicEmptyRange, rng)
  else (.ok (rng.stream rng.pos % n), ⟨rng.stream, rng.pos + 1⟩)

/-- Embedding of `ParamKind::random` (fuzzer.rs, lines 46-84).  For the six
supported `Uint` widths the source draws `size / 8` bytes and prepends
`32 - size / 8` zero bytes; for `Address` it draws 20 bytes after 12 zero
bytes; every other kind hits `unimplemented!()`, and a `Uint` of another
width hits `unreachable!()`. -/
def ParamKind.random (p : ParamKind) (rng : Rng) : Except FuzzError (List Nat) × Rng :=
  match p with
  | .Uint size =>
    if size = 8 ∨ size = 16 ∨ size = 32 ∨ size = 64 ∨ size = 128 ∨ size = 256 then
      let drawn := rng.genBytes (size / 8)
      let padded_bytes_len := 32 - size / 8
      (.ok (List.replicate padded_bytes_len 0 ++ drawn.1), drawn.2)
    else (.error .PanicUnreachable, rng)
  | .Address =>
    let drawn := rng.genBytes 20
    (.ok (List.replicate 12 0 ++ drawn.1), drawn.2)
  | _ => (.error .UnsupportedTypeKind, rng)

/-- Embedding of `ParsedParam` (main.rs): the declared type name of one
parameter. -/
structure ParsedParam where
  internal_type : String

/-- Embedding of `ParsedFunction` (main.rs): one function of the ABI. -/
structure ParsedFunction where
  name : String
  inputs : List ParsedParam

/-- Embedding of `FunctionSpec` (fuzzer.rs, lines 87-95). -/
structure FunctionSpec where
  selector : List Nat
  params : List ParamKind
  name : String

/-- Embedding of `SolidityFuzzer` (fuzzer.rs, lines 97-101). -/
structure SolidityFuzzer where
  functions : List FunctionSpec

/-- Parse the declared type names of one function, left to right, stopping
at the first failure (the model of `param_type.into_iter().map(from_string)
.collect()`, where the first `unimplemented!()` aborts). -/
def parseParams : List String → Except FuzzError (List ParamKind)
  | [] => .ok []
  | t :: ts =>
    match ParamKind.from_string t with
    | .error e => .error e
    | .ok k =>
      match parseParams ts with
      | .error e => .error e
      | .ok ks => .ok (k :: ks)

/-- Build the `FunctionSpec` list of `SolidityFuzzer::new` (fuzzer.rs,
lines 112-135), one function at a time in declaration order. -/
def buildSpecs : List ParsedFunction → Except FuzzError (List FunctionSpec)
  | [] => .ok []
  | parsed_function :: rest =>
    let param_type := parsed_function.inputs.map (fun p => p.internal_type)
    let signature := parsed_function.name ++ "(" ++ String.intercalate (",") param_type ++ ")"
    match parseParams param_type with
    | .error e => .error e
    | .ok params =>
      match buildSpecs rest with
      | .error e => .error e
      | .ok specs =>
        .ok ({ selector := function_selector (utf8Bytes signature)
               params := params
               name := parsed_function.name } :: specs)

/-- Embedding of `SolidityFuzzer::new`. -/
def SolidityFuzzer.new (abi : List ParsedFunction) : Except FuzzError SolidityFuzzer :=
  (buildSpecs abi).map SolidityFuzzer.mk

/-- The `for_each` loop of `generate_random_calldata`: append the random
encoding of each parameter, in declared order, to the calldata accumulated
so far; a panic inside `ParamKind::random` aborts the loop. -/
def encodeParamsLoop : List ParamKind → List Nat → Rng → Except FuzzError (List Nat) × Rng
  | [], calldata, rng => (.ok calldata, rng)
  | p :: ps, calldata, rng =>
    match p.random rng with
    | (.ok w, rng') => encodeParamsLoop ps (calldata ++ w) rng'
    | (.error e, rng') => (.error e, rng')

/-- Embedding of `SolidityFuzzer::generate_random_calldata` (fuzzer.rs,
lines 137-147): draw a function index with `gen_range(0..len)`, start from
its selector and append one random encoding per parameter. -/
def SolidityFuzzer.generate_random_calldata (f : SolidityFuzzer) (rng : Rng) :
    Except FuzzError (List Nat) × Rng :=
  match Rng.genRange rng f.functions.length with
  | (.ok idx, rng') =>
    let function := f.functions.getD idx ⟨[], [], ""⟩
    encodeParamsLoop function.params function.selector rng'
  | (.error e, rng') => (.error e, rng')

/-- Outcome of one transaction of the external execution environment
(revm), scripted: `success` with return data, `revert`, or an abnormal
`halt`. -/
inductive CallOutcome
  | success (returnData : List Nat)
  | revert (returnData : List Nat)
  | halt

/-- Model of the stateful `Evm` collaborator at its interface: `script i`
is the outcome of the `i`-th transaction, `count` the number of
transactions executed so far, and `log` the calls received (address and
calldata). -/
structure Env where
  script : Nat → CallOutcome
  count : Nat
  log : List (Nat × List Nat)

/-- Embedding of `Evm::call` composed with `transact_success_or_panic`
(evm.rs, lines 58-101): a successful transaction returns its output, a
revert or an unexpected halt panics. -/
def Env.call (env : Env) (address : Nat) (calldata : List Nat) :
    Except FuzzError (List Nat) × Env :=
  let env' : Env := ⟨env.script, env.count + 1, env.log ++ [(address, calldata)]⟩
  match env.script env.count with
  | .success ret => (.ok ret, env')
  | .revert _ => (.error .PanicRevert, env')
  | .halt => (.error .PanicHalt, env')

/-- Embedding of `check_invariant` (main.rs, lines 111-121): call
`invariant_neverFalse()` on the invariant checker, assert that the return
word has 32 bytes and that its first 31 bytes are zero, then interpret the
last byte: the verdict is `true` exactly when that byte equals 1. -/
def check_invariant (env : Env) (invariant_checker_address : Nat) :
    Except FuzzError Bool × Env :=
  let called := Env.call env invariant_checker_address
    (function_selector (utf8Bytes ("invariant_neverFalse()")))
  let env' := called.2
  match called.1 with
  | .ok result =>
    if result.length = 32 then
      if result.take 31 = List.replicate 31 0 then (.ok (result.getD 31 0 == 1), env')
      else (.error .PanicAssert, env')
    else (.error .PanicAssert, env')
  | .error e => (.error e, env')

/-- State of the fuzz loop in `main` (main.rs, lines 135-159). -/
structure LoopState where
  iterations : Nat
  rng : Rng
  env : Env

/-- Result of one loop iteration: continue, break with the crash report
(the `result.is_err()` branch), or abort the process with an uncaught
panic. -/
inductive IterResult
  | next (st : LoopState)
  | reported (iterations : Nat) (calldata : List Nat) (st : LoopState)
  | panicked (e : FuzzError) (st : LoopState)

/-- Embedding of one iteration of the fuzz loop in `main` (main.rs, lines
136-158): increment the counter, generate calldata (outside any unwind
guard), run the target call inside `catch_unwind`, and on success run
`check_invariant` (outside the guard, via `and_then`).  A caught target
panic or a `false` verdict reports the crash; a panic in generation or in
the invariant check is uncaught. -/
def fuzzIteration (fz : SolidityFuzzer) (target_address invariant_checker_address : Nat)
    (st : LoopState) : IterResult :=
  let iterations := st.iterations + 1
  match fz.generate_random_calldata st.rng with
  | (.error e, rng') => .panicked e ⟨iterations, rng', st.env⟩
  | (.ok calldata, rng') =>
    match st.env.call target_address calldata with
    | (.error _, env') => .reported iterations calldata ⟨iterations, rng', env'⟩
    | (.ok _, env') =>
      match check_invariant env' invariant_checker_address with
      | (.error e, env2) => .panicked e ⟨iterations, rng', env2⟩
      | (.ok true, env2) => .next ⟨iterations, rng', env2⟩
      | (.ok false, env2) => .reported iterations calldata ⟨iterations, rng', env2⟩

/-- Result of running the fuzz loop for a bounded number of iterations:
either the crash report was emitted and the loop stopped, or the process
aborted with an uncaught panic, or the fuel ran out with the loop still
running. -/
inductive LoopResult
  | reported (iterations : Nat) (calldata : List Nat) (st : LoopState)
  | panicked (e : FuzzError) (st : LoopState)
  | running (st : LoopState)

/-- The fuzz loop of `main`, run for at most `fuel` iterations. -/
def fuzzLoop (fz : SolidityFuzzer) (target_address invariant_checker_address : Nat) :
    Nat → LoopState → LoopResult
  | 0, st => .running st
  | fuel + 1, st =>
    match fuzzIteration fz target_address invariant_checker_address st with
    | .next st' => fuzzLoop fz target_address invariant_checker_address fuel st'
    | .reported n cd st' => .reported n cd st'
    | .panicked e st' => .panicked e st'

/-- Zero random stream, used by the concrete witness instances. -/
def rngZero : Rng := ⟨fun _ => 0, 0⟩

/-- ABI with one function of one `uint8` parameter (witness input). -/
def abiW1 : List ParsedFunction := [⟨"f", [⟨"uint8"⟩]⟩]

/-- The fuzzer built from `abiW1`; the selector bytes are Keccak-256 of
the signature bytes of `f(uint8)`. -/
def fzW1 : SolidityFuzzer := ⟨[⟨[0x31, 0x20, 0xd4, 0x34], [ParamKind.Uint 8], "f"⟩]⟩

/-- Calldata generated from `fzW1` under the zero stream. -/
def cdW1 : List Nat := [0x31, 0x20, 0xd4, 0x34] ++ (List.replicate 31 0 ++ [0])

/-- ABI whose single function uses the unsupported type name `uint24`
(witness input). -/
def abiBad : List ParsedFunction := [⟨"f", [⟨"uint24"⟩]⟩]

/-- Fuzzer with one parameterless function and a dummy 4-byte selector,
used to drive the loop witnesses without hash evaluation. -/
def fzNoParams : SolidityFuzzer := ⟨[⟨[0, 0, 0, 0], [], "g"⟩]⟩

/-- Scripted environment whose every transaction halts abnormally. -/
def envHalt : Env := ⟨fun _ => CallOutcome.halt, 0, []⟩

/-- Initial loop state over `envHalt`. -/
def stHalt : LoopState := ⟨0, rngZero, envHalt⟩

/-- Loop state after the single reported iteration of the `stHalt` run. -/
def stFHalt : LoopState :=
  ⟨1, ⟨fun _ => 0, 1⟩, ⟨fun _ => CallOutcome.halt, 1, [(1, [0, 0, 0, 0])]⟩⟩

/-- Scripted environment: first transaction succeeds, every later one
reverts (so the invariant-check call itself panics). -/
def envSR : Env :=
  ⟨fun n => if n = 0 then CallOutcome.success [] else CallOutcome.revert [], 0, []⟩

/-- Initial loop state over `envSR`. -/
def stSR : LoopState := ⟨0, rngZero, envSR⟩

/-- Scripted environment whose invariant-check return word has bytes 0-30
zero and byte 31 equal to 2 (neither 0 nor 1). -/
def envWordTwo : Env :=
  ⟨fun _ => CallOutcome.success (List.replicate 31 0 ++ [2]), 0, []⟩

/-- Grounding of the Keccak embedding: the well-known Keccak-256 hash of
the empty byte sequence. -/
theorem keccak256_empty_vector : keccak256 [] =
    [0xc5, 0xd2, 0x46, 0x01, 0x86, 0xf7, 0x23, 0x3c, 0x92, 0x7e, 0x7d, 0xb2,
     0xdc, 0xc7, 0x03, 0xc0, 0xe5, 0x00, 0xb6, 0x53, 0xca, 0x82, 0x27, 0x3b,
     0x7b, 0xfa, 0xd8, 0x04, 0x5d, 0x85, 0xa4, 0x70] := by
  rfl

/-- Grounding: the selector of `setUp()` is the well-known `0x0a9254e4`. -/
theorem selector_vector_setUp :
    function_selector (utf8Bytes ("setUp()")) = [0x0a, 0x92, 0x54, 0xe4] := by
  rfl

/-- Grounding: the selector of `inv()`. -/
theorem selector_vector_inv :
    function_selector (utf8Bytes ("inv()")) = [0x03, 0x2d, 0x09, 0x61] := by
  rfl

/-- Grounding: the selector of `invariant_neverFalse()`. -/
theorem selector_vector_invariant_neverFalse :
    function_selector (utf8Bytes ("invariant_neverFalse()")) = [0xd6, 0xe7, 0x38, 0xf5] := by
  rfl

/-- The hash produced by `keccak256` always has exactly 32 bytes. -/
theorem keccak256_length (msg : List Nat) : (keccak256 msg).length = 32 := by
  simp [keccak256, laneBytes]

/-- Reading the first four entries of a list of length at least 4 agrees
with `take 4`. -/
theorem take4_of_length : ∀ (l : List Nat), 4 ≤ l.length →
    [l.getD 0 0, l.getD 1 0, l.getD 2 0, l.getD 3 0] = l.take 4
  | _ :: _ :: _ :: _ :: _, _ => rfl
  | [], h => by simp at h
  | [_], h => by simp at h
  | [_, _], h => by simp at h
  | [_, _, _], h => by simp at h

/-- The selector always has exactly 4 bytes. -/
theorem function_selector_length (sig : List Nat) : (function_selector sig).length = 4 := rfl

/-- C5: for every signature byte sequence, `function_selector` returns
exactly the first 4 bytes of the Keccak-256 hash of those bytes, with no
further transformation, and it is deterministic: equal inputs give equal
4-byte outputs. -/
theorem selector_first_four_of_keccak (s : List Nat) :
    function_selector s = (keccak256 s).take 4 ∧
    (function_selector s).length = 4 ∧
    ∀ t, s = t → function_selector s = function_selector t := by
  have h1 : function_selector s =
      [(keccak256 s).getD 0 0, (keccak256 s).getD 1 0,
       (keccak256 s).getD 2 0, (keccak256 s).getD 3 0] := rfl
  refine ⟨?_, rfl, ?_⟩
  · rw [h1]
    exact take4_of_length _ (by rw [keccak256_length]; omega)
  · intro t ht
    rw [ht]

/-- Witness for C5 at the concrete signature bytes of `inv()`. -/
theorem selector_first_four_of_keccak_witness :
    function_selector (utf8Bytes ("inv()")) = (keccak256 (utf8Bytes ("inv()"))).take 4 ∧
    (function_selector (utf8Bytes ("inv()"))).length = 4 ∧
    ∀ t, utf8Bytes ("inv()") = t →
      function_selector (utf8Bytes ("inv()")) = function_selector t :=
  selector_first_four_of_keccak (utf8Bytes ("inv()"))

/-- The random byte draw returns exactly the requested number of bytes. -/
theorem genBytes_length (rng : Rng) (k : Nat) : (rng.genBytes k).1.length = k := by
  simp [Rng.genBytes]

/-- C2: for every supported width `n`, the random `Uint n` word has 32
bytes, its first `32 - n / 8` bytes are all zero, and its last `n / 8`
bytes are exactly the bytes drawn from the random stream. -/
theorem uint_random_word_shape (n : Nat) (rng : Rng) (w : List Nat) (rng' : Rng)
    (hn : n = 8 ∨ n = 16 ∨ n = 32 ∨ n = 64 ∨ n = 128 ∨ n = 256)
    (hw : (ParamKind.Uint n).random rng = (.ok w, rng')) :
    w.length = 32 ∧
    w.take (32 - n / 8) = List.replicate (32 - n / 8) 0 ∧
    w.drop (32 - n / 8) = (rng.genBytes (n / 8)).1 ∧
    (rng.genBytes (n / 8)).1.length = n / 8 := by
  unfold ParamKind.random at hw
  dsimp only at hw
  rw [if_pos hn] at hw
  simp only [Prod.mk.injEq, Except.ok.injEq] at hw
  obtain ⟨hw1, hw2⟩ := hw
  subst hw1
  have hlen : (rng.genBytes (n / 8)).1.length = n / 8 := genBytes_length rng (n / 8)
  refine ⟨?_, ?_, ?_, hlen⟩
  · rw [List.length_append, List.length_replicate, hlen]
    rcases hn with rfl | rfl | rfl | rfl | rfl | rfl <;> decide
  · rw [List.take_left' (by rw [List.length_replicate])]
  · rw [List.drop_left' (by rw [List.length_replicate])]

/-- Witness for C2 at `n = 8` under the zero stream: 31 zero bytes
followed by the single drawn byte. -/
theorem uint_random_word_shape_witness :
    (List.replicate 31 (0 : Nat) ++ [0]).length = 32 ∧
    (List.replicate 31 (0 : Nat) ++ [0]).take (32 - 8 / 8) = List.replicate (32 - 8 / 8) 0 ∧
    (List.replicate 31 (0 : Nat) ++ [0]).drop (32 - 8 / 8) = (rngZero.genBytes (8 / 8)).1 ∧
    (rngZero.genBytes (8 / 8)).1.length = 8 / 8 :=
  uint_random_word_shape 8 rngZero (List.replicate 31 0 ++ [0]) ⟨rngZero.stream, 1⟩
    (Or.inl rfl) rfl

/-- C8: every random `Address` draw is a 32-byte word whose first 12 bytes
are zero and whose last 20 bytes are the bytes drawn from the random
stream. -/
theorem address_random_word_shape (rng : Rng) :
    ParamKind.Address.random rng =
      (.ok (List.replicate 12 0 ++ (rng.genBytes 20).1), (rng.genBytes 20).2) ∧
    (List.replicate 12 0 ++ (rng.genBytes 20).1).length = 32 ∧
    (List.replicate 12 0 ++ (rng.genBytes 20).1).take 12 = List.replicate 12 0 ∧
    (List.replicate 12 0 ++ (rng.genBytes 20).1).drop 12 = (rng.genBytes 20).1 ∧
    (rng.genBytes 20).1.length = 20 := by
  refine ⟨rfl, ?_, ?_, ?_, genBytes_length rng 20⟩
  · rw [List.length_append, List.length_replicate, genBytes_length rng 20]
  · rw [List.take_left' (by rw [List.length_replicate])]
  · rw [List.drop_left' (by rw [List.length_replicate])]

/-- A type name outside the implemented baseline reaches the
`unimplemented!()` arm of `ParamKind::from_string`. -/
theorem from_string_unsupported {t : String}
    (h : t ∉ (["address", "bytes", "uint8", "uint16", "uint32", "uint64",
               "uint128", "uint256"] : List String)) :
    ParamKind.from_string t = .error .UnsupportedTypeKind := by
  simp only [List.mem_cons, List.not_mem_nil, or_false, not_or] at h
  obtain ⟨h1, h2, h3, h4, h5, h6, h7, h8⟩ := h
  unfold ParamKind.from_string
  rw [if_neg h1, if_neg h2, if_neg h3, if_neg h4, if_neg h5, if_neg h6,
      if_neg h7, if_neg h8]

/-- The only failure `ParamKind::from_string` can produce is the
unsupported-type one. -/
theorem from_string_error_eq {t : String} {e : FuzzError}
    (h : ParamKind.from_string t = .error e) : e = .UnsupportedTypeKind := by
  unfold ParamKind.from_string at h
  repeat' split at h
  all_goals simp_all

/-- The only failure `parseParams` can produce is the unsupported-type
one. -/
theorem parseParams_error_eq {ts : List String} {e : FuzzError}
    (h : parseParams ts = .error e) : e = .UnsupportedTypeKind := by
  induction ts generalizing e with
  | nil => simp [parseParams] at h
  | cons t ts ih =>
    unfold parseParams at h
    rcases hf : ParamKind.from_string t with e' | k <;> rw [hf] at h
    · cases h
      exact from_string_error_eq hf
    · rcases hp : parseParams ts with e'' | ks <;> rw [hp] at h
      · cases h
        exact ih hp
      · cases h

/-- If some listed type name is unsupported, `parseParams` fails with the
unsupported-type failure. -/
theorem parseParams_mem_unsupported {ts : List String} {t : String}
    (hmem : t ∈ ts)
    (hbad : ParamKind.from_string t = .error .UnsupportedTypeKind) :
    parseParams ts = .error .UnsupportedTypeKind := by
  induction ts with
  | nil => cases hmem
  | cons u ts ih =>
    unfold parseParams
    rcases List.mem_cons.mp hmem with rfl | hmem'
    · rw [hbad]
    · rcases hf : ParamKind.from_string u with e' | k
      · have he : e' = FuzzError.UnsupportedTypeKind := from_string_error_eq hf
        subst he
        rfl
      · rw [ih hmem']

/-- The only failure `buildSpecs` can produce is the unsupported-type
one. -/
theorem buildSpecs_error_eq {abi : List ParsedFunction} {e : FuzzError}
    (h : buildSpecs abi = .error e) : e = .UnsupportedTypeKind := by
  induction abi generalizing e with
  | nil => simp [buildSpecs] at h
  | cons pf abi ih =>
    simp only [buildSpecs] at h
    rcases hp : parseParams (List.map (fun p => p.internal_type) pf.inputs) with e' | params <;>
      rw [hp] at h
    · have h2 : (Except.error e' : Except FuzzError (List FunctionSpec)) = .error e := h
      cases h2
      exact parseParams_error_eq hp
    · rcases hb : buildSpecs abi with e'' | specs <;> rw [hb] at h
      · have h2 : (Except.error e'' : Except FuzzError (List FunctionSpec)) = .error e := h
        cases h2
        exact ih hb
      · have h2 : Except.ok
            ({ selector := function_selector (utf8Bytes (pf.name ++ "(" ++
                 String.intercalate (",") (List.map (fun p => p.internal_type) pf.inputs) ++ ")")),
               params := params, name := pf.name } :: specs) = Except.error e := h
        cases h2

/-- If some function's parameter list fails to parse with the
unsupported-type failure, so does the whole `buildSpecs`. -/
theorem buildSpecs_mem_unsupported {abi : List ParsedFunction} {pf : ParsedFunction}
    (hpf : pf ∈ abi)
    (hp : parseParams (pf.inputs.map (fun p => p.internal_type)) =
      .error .UnsupportedTypeKind) :
    buildSpecs abi = .error .UnsupportedTypeKind := by
  induction abi with
  | nil => cases hpf
  | cons qf abi ih =>
    rcases List.mem_cons.mp hpf with rfl | hpf'
    · simp only [buildSpecs]
      rw [hp]
    · simp only [buildSpecs]
      rcases hq : parseParams (List.map (fun p => p.internal_type) qf.inputs) with e' | params
      · have he : e' = FuzzError.UnsupportedTypeKind := parseParams_error_eq hq
        subst he
        rw [hq]
      · rw [hq, ih hpf']

/-- C6: an interface containing any function with a parameter type name
outside the implemented baseline makes `SolidityFuzzer::new` fail with the
unsupported-type failure, constructing nothing. -/
theorem unsupported_type_fails_setup {abi : List ParsedFunction}
    {pf : ParsedFunction} {p : ParsedParam}
    (hpf : pf ∈ abi) (hp : p ∈ pf.inputs)
    (hu : p.internal_type ∉ (["address", "bytes", "uint8", "uint16", "uint32",
      "uint64", "uint128", "uint256"] : List String)) :
    SolidityFuzzer.new abi = .error .UnsupportedTypeKind := by
  have hbad := from_string_unsupported hu
  have hmem : p.internal_type ∈ pf.inputs.map (fun q => q.internal_type) :=
    List.mem_map_of_mem _ hp
  have hpp := parseParams_mem_unsupported hmem hbad
  have hb := buildSpecs_mem_unsupported hpf hpp
  unfold SolidityFuzzer.new
  rw [hb]
  rfl

/-- Witness for C6 at the concrete interface `abiBad` (one function with a
`uint24` parameter). -/
theorem unsupported_type_fails_setup_witness :
    SolidityFuzzer.new abiBad = .error .UnsupportedTypeKind :=
  @unsupported_type_fails_setup abiBad ⟨"f", [⟨"uint24"⟩]⟩ ⟨"uint24"⟩
    (List.mem_singleton.mpr rfl) (List.mem_singleton.mpr rfl) (by decide)

/-- Counterexample for C7: an interface with zero functions does build
(`new` succeeds with an empty collection), but generating calldata from it
hits the panic of `gen_range` on the empty range `0..0`
(`PanicEmptyRange`, aborting the harness), not a typed `EmptyInterface`
error. -/
theorem empty_interface_panics_cex :
    SolidityFuzzer.new [] = .ok ⟨[]⟩ ∧
    (SolidityFuzzer.generate_random_calldata ⟨[]⟩ rngZero).1 = .error .PanicEmptyRange ∧
    (SolidityFuzzer.generate_random_calldata ⟨[]⟩ rngZero).1 ≠ .error .EmptyInterface := by
  have h : (SolidityFuzzer.generate_random_calldata ⟨[]⟩ rngZero).1 =
      .error .PanicEmptyRange := rfl
  refine ⟨rfl, h, ?_⟩
  rw [h]
  simp only [ne_eq, Except.error.injEq]
  decide

/-- C7 amended: with an empty `FunctionSpec` collection, calldata
generation fails with the `gen_range` empty-range panic (a crash of the
harness process), leaving the random generator untouched. -/
theorem empty_interface_gen_panics (fz : SolidityFuzzer) (rng : Rng)
    (h : fz.functions = []) :
    fz.generate_random_calldata rng = (.error .PanicEmptyRange, rng) := by
  unfold SolidityFuzzer.generate_random_calldata
  rw [h]
  rfl

/-- Witness for the amended C7 at the concrete empty fuzzer. -/
theorem empty_interface_gen_panics_witness :
    SolidityFuzzer.generate_random_calldata ⟨[]⟩ rngZero =
      (.error .PanicEmptyRange, rngZero) :=
  empty_interface_gen_panics ⟨[]⟩ rngZero rfl

/-- Counterexample for C3: when the invariant check's return word has
bytes 0-30 zero and byte 31 equal to 2 (neither 0 nor 1), `check_invariant`
returns the verdict `false` — the word IS silently coerced to a boolean
verdict, and no fatal encoding-violation failure is raised. -/
theorem invariant_byte_two_coerced_cex :
    (check_invariant envWordTwo 7).1 = .ok false ∧
    (check_invariant envWordTwo 7).1 ≠ .error .InvariantEncodingViolation ∧
    (List.replicate 31 0 ++ [2] : List Nat).take 31 = List.replicate 31 0 ∧
    (List.replicate 31 0 ++ [2] : List Nat).getD 31 0 = 2 := by
  have h : (check_invariant envWordTwo 7).1 = .ok false := rfl
  refine ⟨h, ?_, rfl, rfl⟩
  rw [h]
  simp

/-- C3 amended: a 32-byte return word with bytes 0-30 zero and byte 31
neither 0 nor 1 passes both assertions of `check_invariant` and is coerced
to the `false` verdict (which the loop then reports as a crash); no
encoding-violation failure exists in the code. -/
theorem invariant_nonbool_coerced_false (env : Env) (addr : Nat) (ret : List Nat)
    (hs : env.script env.count = CallOutcome.success ret)
    (hlen : ret.length = 32)
    (hzero : ret.take 31 = List.replicate 31 0)
    (_hne0 : ret.getD 31 0 ≠ 0) (hne1 : ret.getD 31 0 ≠ 1) :
    (check_invariant env addr).1 = .ok false := by
  unfold check_invariant Env.call
  rw [hs]
  dsimp only
  rw [if_pos hlen, if_pos hzero]
  simp only [Except.ok.injEq]
  exact beq_eq_false_iff_ne.mpr hne1

/-- Witness for the amended C3 at the concrete environment whose return
word ends in byte 2. -/
theorem invariant_nonbool_coerced_false_witness :
    (check_invariant envWordTwo 7).1 = .ok false :=
  invariant_nonbool_coerced_false envWordTwo 7 (List.replicate 31 0 ++ [2])
    rfl (by decide) (by decide) (by decide) (by decide)

/-- Whenever `ParamKind::random` returns normally, the returned word has
exactly 32 bytes. -/
theorem random_ok_length {p : ParamKind} {rng rng' : Rng} {w : List Nat}
    (h : p.random rng = (.ok w, rng')) : w.length = 32 := by
  cases p with
  | Uint size =>
    by_cases hc : size = 8 ∨ size = 16 ∨ size = 32 ∨ size = 64 ∨ size = 128 ∨ size = 256
    · have h2 : ((Except.ok (List.replicate (32 - size / 8) 0 ++ (rng.genBytes (size / 8)).1) :
          Except FuzzError (List Nat)), (rng.genBytes (size / 8)).2) = (.ok w, rng') := by
        rw [← h]
        unfold ParamKind.random
        dsimp only
        rw [if_pos hc]
      simp only [Prod.mk.injEq, Except.ok.injEq] at h2
      obtain ⟨hw, _⟩ := h2
      subst hw
      rw [List.length_append, List.length_replicate, genBytes_length]
      rcases hc with rfl | rfl | rfl | rfl | rfl | rfl <;> decide
    · have h2 : ((Except.error FuzzError.PanicUnreachable : Except FuzzError (List Nat)), rng) =
          ((Except.ok w : Except FuzzError (List Nat)), rng') := by
        rw [← h]
        unfold ParamKind.random
        dsimp only
        rw [if_neg hc]
      exact absurd h2 (by simp)
  | Address =>
    have h2 : ((Except.ok (List.replicate 12 0 ++ (rng.genBytes 20).1) :
        Except FuzzError (List Nat)), (rng.genBytes 20).2) = (.ok w, rng') := h
    simp only [Prod.mk.injEq, Except.ok.injEq] at h2
    obtain ⟨hw, _⟩ := h2
    subst hw
    rw [List.length_append, List.length_replicate, genBytes_length]
  | Bytes => exact Except.noConfusion (congrArg Prod.fst
      (h : ((Except.error FuzzError.UnsupportedTypeKind :
        Except FuzzError (List Nat)), rng) = (.ok w, rng')))
  | Int width => exact Except.noConfusion (congrArg Prod.fst
      (h : ((Except.error FuzzError.UnsupportedTypeKind :
        Except FuzzError (List Nat)), rng) = (.ok w, rng')))
  | Bool => exact Except.noConfusion (congrArg Prod.fst
      (h : ((Except.error FuzzError.UnsupportedTypeKind :
        Except FuzzError (List Nat)), rng) = (.ok w, rng')))
  | String => exact Except.noConfusion (congrArg Prod.fst
      (h : ((Except.error FuzzError.UnsupportedTypeKind :
        Except FuzzError (List Nat)), rng) = (.ok w, rng')))
  | Array element => exact Except.noConfusion (congrArg Prod.fst
      (h : ((Except.error FuzzError.UnsupportedTypeKind :
        Except FuzzError (List Nat)), rng) = (.ok w, rng')))
  | FixedBytes len => exact Except.noConfusion (congrArg Prod.fst
      (h : ((Except.error FuzzError.UnsupportedTypeKind :
        Except FuzzError (List Nat)), rng) = (.ok w, rng')))
  | FixedArray element len => exact Except.noConfusion (congrArg Prod.fst
      (h : ((Except.error FuzzError.UnsupportedTypeKind :
        Except FuzzError (List Nat)), rng) = (.ok w, rng')))
  | Tuple elements => exact Except.noConfusion (congrArg Prod.fst
      (h : ((Except.error FuzzError.UnsupportedTypeKind :
        Except FuzzError (List Nat)), rng) = (.ok w, rng')))

/-- Characterisation of the parameter-encoding loop on success: the
produced calldata is the accumulator followed by one word per parameter,
in declared order; each word has 32 bytes and is a possible random
encoding of its parameter. -/
theorem encodeParamsLoop_ok {ps : List ParamKind} {acc cd : List Nat} {rng rng' : Rng}
    (h : encodeParamsLoop ps acc rng = (.ok cd, rng')) :
    ∃ ws : List (List Nat), cd = acc ++ ws.flatten ∧ ws.length = ps.length ∧
      (∀ w ∈ ws, w.length = 32) ∧
      List.Forall₂ (fun p w => ∃ r1 r2 : Rng, p.random r1 = (.ok w, r2)) ps ws := by
  induction ps generalizing acc rng with
  | nil =>
    have h2 : ((Except.ok acc : Except FuzzError (List Nat)), rng) = (.ok cd, rng') := h
    simp only [Prod.mk.injEq, Except.ok.injEq] at h2
    exact ⟨[], by simp [h2.1], rfl, by simp, List.Forall₂.nil⟩
  | cons p ps ih =>
    unfold encodeParamsLoop at h
    rcases hr : p.random rng with ⟨res, rng1⟩
    rw [hr] at h
    cases res with
    | error e => exact absurd h (by simp)
    | ok w =>
      obtain ⟨ws, hcd, hlen, h32, hfa⟩ := ih h
      refine ⟨w :: ws, ?_, by simp [hlen], ?_, ?_⟩
      · rw [hcd, List.flatten_cons, List.append_assoc]
      · intro w' hw'
        rcases List.mem_cons.mp hw' with rfl | hw''
        · exact random_ok_length hr
        · exact h32 w' hw''
      · exact List.Forall₂.cons ⟨rng, rng1, hr⟩ hfa

/-- The concatenation of words of 32 bytes each has `32 * count` bytes. -/
theorem flatten_length_32 {ws : List (List Nat)} (h : ∀ w ∈ ws, w.length = 32) :
    ws.flatten.length = 32 * ws.length := by
  induction ws with
  | nil => simp
  | cons w ws ih =>
    rw [List.flatten_cons, List.length_append, h w (by simp),
        ih (fun w' hw' => h w' (by simp [hw'])), List.length_cons]
    ring

/-- Every selector stored by `buildSpecs` has exactly 4 bytes. -/
theorem buildSpecs_selector_length {abi : List ParsedFunction} {specs : List FunctionSpec}
    (h : buildSpecs abi = .ok specs) :
    ∀ fs ∈ specs, fs.selector.length = 4 := by
  induction abi generalizing specs with
  | nil =>
    have h2 : (Except.ok [] : Except FuzzError (List FunctionSpec)) = .ok specs := h
    cases h2
    intro fs hfs
    cases hfs
  | cons pf abi ih =>
    simp only [buildSpecs] at h
    rcases hp : parseParams (List.map (fun p => p.internal_type) pf.inputs) with e' | params <;>
      rw [hp] at h
    · exact absurd h (by simp)
    · rcases hb : buildSpecs abi with e'' | specs' <;> rw [hb] at h
      · exact absurd h (by simp)
      · have h2 : Except.ok
            ({ selector := function_selector (utf8Bytes (pf.name ++ "(" ++
                 String.intercalate (",") (List.map (fun p => p.internal_type) pf.inputs) ++ ")")),
               params := params, name := pf.name } :: specs') =
            (Except.ok specs : Except FuzzError (List FunctionSpec)) := h
        cases h2
        intro fs hfs
        rcases List.mem_cons.mp hfs with rfl | hfs'
        · exact function_selector_length _
        · exact ih hb fs hfs'

/-- An in-bounds `getD` is a member of the list. -/
theorem getD_mem_of_lt {α : Type} {l : List α} {i : Nat} (h : i < l.length) (d : α) :
    l.getD i d ∈ l := by
  induction l generalizing i with
  | nil => simp at h
  | cons a l ih =>
    cases i with
    | zero => exact List.mem_cons_self a l
    | succ i =>
      exact List.mem_cons_of_mem a (ih (by simpa using h))

/-- C1: for every fuzzer built by `SolidityFuzzer::new`, every normally
returned calldata consists of the selected function's 4-byte selector
followed by one 32-byte random word per parameter, in declared order, so
its length is exactly `4 + 32 * k` for `k` parameters. -/
theorem calldata_selector_and_words {abi : List ParsedFunction} {fz : SolidityFuzzer}
    {rng rng' : Rng} {cd : List Nat}
    (hnew : SolidityFuzzer.new abi = .ok fz)
    (hgen : fz.generate_random_calldata rng = (.ok cd, rng')) :
    ∃ fs ∈ fz.functions, ∃ ws : List (List Nat),
      cd = fs.selector ++ ws.flatten ∧ fs.selector.length = 4 ∧
      ws.length = fs.params.length ∧ (∀ w ∈ ws, w.length = 32) ∧
      List.Forall₂ (fun p w => ∃ r1 r2 : Rng, p.random r1 = (.ok w, r2)) fs.params ws ∧
      cd.length = 4 + 32 * fs.params.length := by
  -- extract the spec list built by `new`
  obtain ⟨specs, hb, rfl⟩ : ∃ specs, buildSpecs abi = .ok specs ∧ fz = ⟨specs⟩ := by
    unfold SolidityFuzzer.new at hnew
    rcases hb : buildSpecs abi with e | specs <;> rw [hb] at hnew
    · exact absurd hnew (by simp [Except.map])
    · refine ⟨specs, rfl, ?_⟩
      have h2 : (Except.ok (SolidityFuzzer.mk specs) : Except FuzzError SolidityFuzzer) =
          .ok fz := hnew
      cases h2
      rfl
  -- unfold the generator
  unfold SolidityFuzzer.generate_random_calldata at hgen
  rcases hR : Rng.genRange rng (SolidityFuzzer.mk specs).functions.length with ⟨ri, rng1⟩
  rw [hR] at hgen
  cases ri with
  | error e => exact absurd hgen (by simp)
  | ok idx =>
    have hlt : idx < specs.length := by
      unfold Rng.genRange at hR
      by_cases h0 : (SolidityFuzzer.mk specs).functions.length = 0
      · rw [if_pos h0] at hR
        exact absurd hR (by simp)
      · rw [if_neg h0] at hR
        have h2 : idx = rng.stream rng.pos % specs.length := by
          have := congrArg Prod.fst hR
          simpa using this.symm
        rw [h2]
        exact Nat.mod_lt _ (Nat.pos_of_ne_zero h0)
    dsimp only at hgen
    obtain ⟨ws, hcd, hlen, h32, hfa⟩ := encodeParamsLoop_ok hgen
    have hmem : specs.getD idx ⟨[], [], ""⟩ ∈ specs := getD_mem_of_lt hlt _
    have hsel : (specs.getD idx ⟨[], [], ""⟩).selector.length = 4 :=
      buildSpecs_selector_length hb _ hmem
    refine ⟨specs.getD idx ⟨[], [], ""⟩, hmem, ws, hcd, hsel, hlen, h32, hfa, ?_⟩
    rw [hcd, List.length_append, hsel, flatten_length_32 h32, hlen]

/-- Witness for C1 at the one-function interface `abiW1` under the zero
stream: 36 bytes, the selector of `f(uint8)` followed by one 32-byte
word. -/
theorem calldata_selector_and_words_witness :
    ∃ fs ∈ fzW1.functions, ∃ ws : List (List Nat),
      cdW1 = fs.selector ++ ws.flatten ∧ fs.selector.length = 4 ∧
      ws.length = fs.params.length ∧ (∀ w ∈ ws, w.length = 32) ∧
      List.Forall₂ (fun p w => ∃ r1 r2 : Rng, p.random r1 = (.ok w, r2)) fs.params ws ∧
      cdW1.length = 4 + 32 * fs.params.length :=
  @calldata_selector_and_words abiW1 fzW1 rngZero ⟨rngZero.stream, 2⟩ cdW1
    (by rfl) (by rfl)

/-- The environment after any call has its counter advanced by one and the
call appended to the log, whatever the outcome. -/
theorem envCall_snd (e : Env) (a : Nat) (c : List Nat) :
    (Env.call e a c).2 = ⟨e.script, e.count + 1, e.log ++ [(a, c)]⟩ := by
  unfold Env.call
  rcases e.script e.count <;> rfl

/-- The environment after `check_invariant` is the environment after its
single call to the invariant checker, whatever the verdict. -/
theorem checkInvariant_snd (e : Env) (a : Nat) :
    (check_invariant e a).2 =
      (Env.call e a (function_selector (utf8Bytes ("invariant_neverFalse()")))).2 := by
  unfold check_invariant
  rcases hc : Env.call e a (function_selector (utf8Bytes ("invariant_neverFalse()")))
    with ⟨r, env'⟩
  rcases r with e' | result
  · rfl
  · dsimp only
    split
    · split <;> rfl
    · rfl

/-- C4: in any iteration in which the target call panics (in particular an
abnormal halt), the iteration reports the crash immediately with that very
calldata, and the environment performed exactly one more call — the target
call; the invariant checker was never called in that iteration. -/
theorem fault_short_circuits_invariant (fz : SolidityFuzzer) (t i : Nat) (st : LoopState)
    (cd : List Nat) (rng1 : Rng)
    (hgen : fz.generate_random_calldata st.rng = (.ok cd, rng1))
    (hhalt : st.env.script st.env.count = CallOutcome.halt) :
    fuzzIteration fz t i st =
      .reported (st.iterations + 1) cd
        ⟨st.iterations + 1, rng1, ⟨st.env.script, st.env.count + 1, st.env.log ++ [(t, cd)]⟩⟩ := by
  unfold fuzzIteration
  rw [hgen]
  dsimp only
  unfold Env.call
  rw [hhalt]

/-- Witness for C4: concrete one-function fuzzer against the always-halting
environment. -/
theorem fault_short_circuits_invariant_witness :
    fuzzIteration fzNoParams 1 2 stHalt =
      .reported (stHalt.iterations + 1) [0, 0, 0, 0]
        ⟨stHalt.iterations + 1, ⟨fun _ => 0, 1⟩,
         ⟨stHalt.env.script, stHalt.env.count + 1, stHalt.env.log ++ [(1, [0, 0, 0, 0])]⟩⟩ :=
  fault_short_circuits_invariant fzNoParams 1 2 stHalt [0, 0, 0, 0] ⟨fun _ => 0, 1⟩
    (by rfl) (by rfl)

/-- C10: if the target call of an iteration succeeds but the
invariant-check call itself reverts or halts, the iteration ends in an
uncaught panic (the `catch_unwind` guard wraps only the target call): the
outcome is never the crash report, and the whole loop aborts as panicked,
so the crash report is never emitted. -/
theorem invariant_call_panic_uncaught (fz : SolidityFuzzer) (t i : Nat) (st : LoopState)
    (cd ret : List Nat) (rng1 : Rng)
    (hgen : fz.generate_random_calldata st.rng = (.ok cd, rng1))
    (hok : st.env.script st.env.count = CallOutcome.success ret)
    (hbad : (∃ out, st.env.script (st.env.count + 1) = CallOutcome.revert out) ∨
            st.env.script (st.env.count + 1) = CallOutcome.halt) :
    (∃ e st', fuzzIteration fz t i st = .panicked e st' ∧
      ∀ fuel, fuzzLoop fz t i (fuel + 1) st = .panicked e st') ∧
    ∀ n cd' st'', fuzzIteration fz t i st ≠ .reported n cd' st'' := by
  have hit : ∃ e st', fuzzIteration fz t i st = .panicked e st' := by
    unfold fuzzIteration
    rw [hgen]
    dsimp only
    unfold Env.call
    rw [hok]
    dsimp only
    unfold check_invariant Env.call
    dsimp only
    rcases hbad with ⟨out, hr⟩ | hr <;> rw [hr] <;> exact ⟨_, _, rfl⟩
  obtain ⟨e, st', hit⟩ := hit
  refine ⟨⟨e, st', hit, fun fuel => ?_⟩, fun n cd' st'' hcontra => ?_⟩
  · show fuzzLoop fz t i (fuel + 1) st = _
    unfold fuzzLoop
    rw [hit]
  · rw [hit] at hcontra
    exact IterResult.noConfusion hcontra

/-- Witness for C10: first scripted transaction succeeds, the second (the
invariant check) reverts. -/
theorem invariant_call_panic_uncaught_witness :
    (∃ e st', fuzzIteration fzNoParams 1 2 stSR = .panicked e st' ∧
      ∀ fuel, fuzzLoop fzNoParams 1 2 (fuel + 1) stSR = .panicked e st') ∧
    ∀ n cd' st'', fuzzIteration fzNoParams 1 2 stSR ≠ .reported n cd' st'' :=
  invariant_call_panic_uncaught fzNoParams 1 2 stSR [0, 0, 0, 0] [] ⟨fun _ => 0, 1⟩
    (by rfl) (by rfl) (Or.inl ⟨[], by rfl⟩)

/-- A reported iteration reports the incremented counter and a calldata
that was sent to the target during that very iteration (it appears in the
final environment's call log, addressed to the target). -/
theorem fuzzIteration_reported {fz : SolidityFuzzer} {t i : Nat} {st : LoopState}
    {n : Nat} {cd : List Nat} {st' : LoopState}
    (h : fuzzIteration fz t i st = .reported n cd st') :
    n = st.iterations + 1 ∧ st'.iterations = n ∧ (t, cd) ∈ st'.env.log := by
  unfold fuzzIteration at h
  rcases hg : fz.generate_random_calldata st.rng with ⟨res, rng1⟩
  rw [hg] at h
  cases res with
  | error e => exact IterResult.noConfusion (h :
      (IterResult.panicked e ⟨st.iterations + 1, rng1, st.env⟩) = .reported n cd st')
  | ok calldata =>
    dsimp only at h
    rcases hc : Env.call st.env t calldata with ⟨cres, env'⟩
    rw [hc] at h
    have henv : env' = ⟨st.env.script, st.env.count + 1, st.env.log ++ [(t, calldata)]⟩ := by
      have := envCall_snd st.env t calldata
      rw [hc] at this
      exact this
    cases cres with
    | error e =>
      have h2 : (IterResult.reported (st.iterations + 1) calldata
          ⟨st.iterations + 1, rng1, env'⟩) = .reported n cd st' := h
      injection h2 with h3 h4 h5
      subst h3
      subst h4
      subst h5
      refine ⟨rfl, rfl, ?_⟩
      rw [henv]
      simp
    | ok ret =>
      dsimp only at h
      rcases hci : check_invariant env' i with ⟨ires, env2⟩
      rw [hci] at h
      have henv2 : env2.log = env'.log ++
          [(i, function_selector (utf8Bytes ("invariant_neverFalse()")))] := by
        have hsnd := checkInvariant_snd env' i
        rw [hci] at hsnd
        have h4 : env2 =
            (Env.call env' i (function_selector (utf8Bytes ("invariant_neverFalse()")))).2 := hsnd
        rw [h4, envCall_snd]
      cases ires with
      | error e => exact IterResult.noConfusion (h :
          (IterResult.panicked e ⟨st.iterations + 1, rng1, env2⟩) = .reported n cd st')
      | ok b =>
        cases b with
        | true => exact IterResult.noConfusion (h :
            (IterResult.next ⟨st.iterations + 1, rng1, env2⟩) = .reported n cd st')
        | false =>
          have h2 : (IterResult.reported (st.iterations + 1) calldata
              ⟨st.iterations + 1, rng1, env2⟩) = .reported n cd st' := h
          injection h2 with h3 h4 h5
          subst h3
          subst h4
          subst h5
          refine ⟨rfl, rfl, ?_⟩
          rw [henv2, henv]
          simp

/-- Once the loop has reported, any additional fuel leaves the result
unchanged: no further iterations occur after the report. -/
theorem fuzzLoop_reported_stable {fz : SolidityFuzzer} {t i fuel : Nat} {st : LoopState}
    {n : Nat} {cd : List Nat} {st' : LoopState}
    (h : fuzzLoop fz t i fuel st = .reported n cd st') :
    ∀ k, fuzzLoop fz t i (fuel + k) st = .reported n cd st' := by
  induction fuel generalizing st with
  | zero => exact LoopResult.noConfusion (h : (LoopResult.running st) = .reported n cd st')
  | succ fuel ih =>
    intro k
    have hshift : fuel + 1 + k = (fuel + k) + 1 := by omega
    rw [hshift]
    unfold fuzzLoop at h ⊢
    rcases hit : fuzzIteration fz t i st with st1 | ⟨n1, cd1, st1⟩ | ⟨e1, st1⟩ <;>
      rw [hit] at h
    · exact ih h k
    · exact h
    · exact h

/-- A reported loop outcome comes from a reported iteration whose counter
is one more than its predecessor state's. -/
theorem fuzzLoop_reported_src {fz : SolidityFuzzer} {t i fuel : Nat} {st : LoopState}
    {n : Nat} {cd : List Nat} {st' : LoopState}
    (h : fuzzLoop fz t i fuel st = .reported n cd st') :
    ∃ stp, fuzzIteration fz t i stp = .reported n cd st' ∧ n = stp.iterations + 1 := by
  induction fuel generalizing st with
  | zero => exact LoopResult.noConfusion (h : (LoopResult.running st) = .reported n cd st')
  | succ fuel ih =>
    unfold fuzzLoop at h
    rcases hit : fuzzIteration fz t i st with st1 | ⟨n1, cd1, st1⟩ | ⟨e1, st1⟩ <;>
      rw [hit] at h
    · exact ih h
    · have h2 : (LoopResult.reported n1 cd1 st1) = .reported n cd st' := h
      injection h2 with h3 h4 h5
      subst h3
      subst h4
      subst h5
      exact ⟨st, hit, (fuzzIteration_reported hit).1⟩
    · exact LoopResult.noConfusion (h : (LoopResult.panicked e1 st1) = .reported n cd st')

/-- C9: whenever the fuzz loop reaches the crash report, the reported
iteration count is the final state's count, the reported calldata is
exactly the byte sequence sent to the target in the failing iteration
(it sits in the call log addressed to the target), and the loop stops:
running with any additional fuel yields the identical report. -/
theorem crash_report_exact_and_terminal {fz : SolidityFuzzer} {t i fuel : Nat}
    {st0 : LoopState} {n : Nat} {cd : List Nat} {stf : LoopState}
    (h : fuzzLoop fz t i fuel st0 = .reported n cd stf) :
    stf.iterations = n ∧ (t, cd) ∈ stf.env.log ∧
    (∃ stp, fuzzIteration fz t i stp = .reported n cd stf ∧ n = stp.iterations + 1) ∧
    ∀ k, fuzzLoop fz t i (fuel + k) st0 = .reported n cd stf := by
  obtain ⟨stp, hit, hn⟩ := fuzzLoop_reported_src h
  obtain ⟨h1, h2, h3⟩ := fuzzIteration_reported hit
  exact ⟨h2, h3, ⟨stp, hit, hn⟩, fuzzLoop_reported_stable h⟩

/-- Witness for C9: the concrete halting run reports at iteration 1 with
the generated 4-byte calldata, and extra fuel changes nothing. -/
theorem crash_report_exact_and_terminal_witness :
    stFHalt.iterations = 1 ∧ (1, [0, 0, 0, 0]) ∈ stFHalt.env.log ∧
    (∃ stp, fuzzIteration fzNoParams 1 2 stp = .reported 1 [0, 0, 0, 0] stFHalt ∧
      1 = stp.iterations + 1) ∧
    ∀ k, fuzzLoop fzNoParams 1 2 (1 + k) stHalt = .reported 1 [0, 0, 0, 0] stFHalt :=
  @crash_report_exact_and_terminal fzNoParams 1 2 1 stHalt 1 [0, 0, 0, 0] stFHalt (by rfl)
